import Mathlib

/-!
# Verification of the Liquid-Flow analytics core

Shallow embedding of the four algorithm classes of the repository
(`SlippageCalculator`, `ArbitrageDetector`, `LiquidityScorer`,
`RouteOptimizer`) and proofs of the specified properties.

JavaScript numbers are idealised as exact rationals (`ℚ`); JavaScript's
stable `Array.prototype.sort` with a numeric comparator is modelled by
`List.insertionSort`, which is stable and sorts by the corresponding
total preorder.  Thrown exceptions are modelled with `Except`.
-/

/-- One price level of an orderbook ladder: `{price, quantity}`. -/
structure PriceLevel where
  price : ℚ
  quantity : ℚ
deriving DecidableEq, Repr

instance : Inhabited PriceLevel := ⟨⟨0, 0⟩⟩

/-- The `side` argument: `'buy' | 'sell'`. -/
inductive Side where
  | buy
  | sell
deriving DecidableEq, Repr

/-- `orderbook.reduce((sum, level) => sum + level.quantity, 0)`. -/
def sumQ (book : List PriceLevel) : ℚ :=
  book.foldl (fun s lv => s + lv.quantity) 0

/-- The sort comparator `side === 'buy' ? a.price - b.price : b.price - a.price`,
as the total preorder it sorts by. -/
def sideLE (side : Side) (a b : PriceLevel) : Prop :=
  match side with
  | .buy => a.price ≤ b.price
  | .sell => b.price ≤ a.price

instance (side : Side) : DecidableRel (sideLE side) := fun a b => by
  cases side <;> simp only [sideLE] <;> infer_instance

/-- `[...orderbook].sort((a, b) => side === 'buy' ? a.price - b.price : b.price - a.price)`:
a stable sort of a copy, best prices first. -/
def sortBook (side : Side) (book : List PriceLevel) : List PriceLevel :=
  List.insertionSort (sideLE side) book

/-- The fill loop of `calculateSlippage`: walks the sorted levels, at each
level taking `min(remainingSize, level.quantity)`, accumulating
`totalCost` and `totalQuantity`, breaking once `remainingSize <= 0`.
Returns `(totalCost, totalQuantity, remainingSize)`. -/
def fillWalk : List PriceLevel → ℚ → ℚ × ℚ × ℚ
  | [], remaining => (0, 0, remaining)
  | level :: rest, remaining =>
    if remaining ≤ 0 then (0, 0, remaining)
    else
      let quantityToTake := min remaining level.quantity
      let out := fillWalk rest (remaining - quantityToTake)
      (quantityToTake * level.price + out.1, quantityToTake + out.2.1, out.2.2)

/-- The error taxonomy of `calculateSlippage`
(`throw new Error(...)` with the three message kinds). -/
inductive SlipError where
  | invalidOrderSize
  | emptyLadder
  | insufficientLiquidity (filled : ℚ) (requested : ℚ)
deriving DecidableEq, Repr

/-- The `SlippageResult` record. -/
structure SlippageResult where
  expectedPrice : ℚ
  actualPrice : ℚ
  slippagePercent : ℚ
  priceImpact : ℚ
  totalCost : ℚ
deriving DecidableEq, Repr

/-- `SlippageCalculator.calculateSlippage(orderbook, orderSize, side)`. -/
def calculateSlippage (orderbook : List PriceLevel) (orderSize : ℚ)
    (side : Side) : Except SlipError SlippageResult :=
  if orderSize ≤ 0 then .error .invalidOrderSize
  else if orderbook.isEmpty then .error .emptyLadder
  else
    let sortedBook := sortBook side orderbook
    let bestPrice := sortedBook.headI.price
    let walk := fillWalk sortedBook orderSize
    let totalCost := walk.1
    let totalQuantity := walk.2.1
    let remainingSize := walk.2.2
    if 0 < remainingSize then
      .error (.insufficientLiquidity totalQuantity orderSize)
    else
      let averagePrice := totalCost / totalQuantity
      let slippagePercent := (averagePrice - bestPrice) / bestPrice * 100
      let priceImpact := slippagePercent
      .ok { expectedPrice := bestPrice
            actualPrice := averagePrice
            slippagePercent := |slippagePercent|
            priceImpact := |priceImpact|
            totalCost := totalCost }

/-- One slot of the slippage ladder result. -/
structure LadderSlot where
  orderSize : ℚ
  slippage : Option SlippageResult
deriving DecidableEq, Repr

/-- `SlippageCalculator.calculateSlippageLadder(orderbook, side, steps)`:
maps each step through `calculateSlippage`, catching any failure into
`slippage: null`. -/
def calculateSlippageLadder (orderbook : List PriceLevel) (side : Side)
    (steps : List ℚ) : List LadderSlot :=
  steps.map fun size =>
    { orderSize := size
      slippage := (calculateSlippage orderbook size side).toOption }

/-- A store of JavaScript arrays, for stating what `calculateSlippage`
does to its caller's array: a reference is an index into the store. -/
abbrev ArrayStore : Type := List (List PriceLevel)

/-- Read the array behind reference `r` (unallocated references read `[]`). -/
def storeGet (h : ArrayStore) (r : Nat) : List PriceLevel :=
  List.getD h r []

/-- `calculateSlippage` with the caller's orderbook passed by reference into a
store of arrays, making the array operations of the source explicit:
`[...orderbook]` allocates a fresh array at the end of the store, and `.sort`
rewrites that fresh array in place.  Returns the result together with the
final store. -/
def calculateSlippageStore (h : ArrayStore) (r : Nat) (orderSize : ℚ)
    (side : Side) : Except SlipError SlippageResult × ArrayStore :=
  let orderbook := storeGet h r
  if orderSize ≤ 0 then (.error .invalidOrderSize, h)
  else if orderbook.isEmpty then (.error .emptyLadder, h)
  else
    let h1 : ArrayStore := h ++ [orderbook]
    let rCopy := List.length h
    let h2 : ArrayStore := List.set h1 rCopy (sortBook side (storeGet h1 rCopy))
    let sortedBook := storeGet h2 rCopy
    let bestPrice := sortedBook.headI.price
    let walk := fillWalk sortedBook orderSize
    if 0 < walk.2.2 then
      (.error (.insufficientLiquidity walk.2.1 orderSize), h2)
    else
      let averagePrice := walk.1 / walk.2.1
      let slippagePercent := (averagePrice - bestPrice) / bestPrice * 100
      (.ok { expectedPrice := bestPrice
             actualPrice := averagePrice
             slippagePercent := |slippagePercent|
             priceImpact := |slippagePercent|
             totalCost := walk.1 }, h2)

/-! ## ArbitrageDetector -/

/-- A market summary record as consumed by `ArbitrageDetector`. -/
structure MarketSummary where
  marketId : String
  token : String
  bestBid : ℚ
  bestAsk : ℚ
  bidQuantity : ℚ
  askQuantity : ℚ
deriving DecidableEq, Repr

/-- The `ArbitrageOpportunity` record. -/
structure ArbitrageOpportunity where
  buyMarket : String
  sellMarket : String
  buyPrice : ℚ
  sellPrice : ℚ
  spread : ℚ
  spreadPercent : ℚ
  maxProfitableSize : ℚ
  estimatedProfit : ℚ
  token : String
deriving DecidableEq, Repr

/-- `ArbitrageDetector.checkArbitrage(buyMarket, sellMarket, token, minSpreadPercent)`.
The flat fee rate `feePercent = 0.002` is `2/1000`. -/
def checkArbitrage (buyMarket sellMarket : MarketSummary) (token : String)
    (minSpreadPercent : ℚ) : Option ArbitrageOpportunity :=
  let buyPrice := buyMarket.bestAsk
  let sellPrice := sellMarket.bestBid
  if sellPrice ≤ buyPrice then none
  else
    let spread := sellPrice - buyPrice
    let spreadPercent := spread / buyPrice * 100
    if spreadPercent < minSpreadPercent then none
    else
      let maxSize := min buyMarket.askQuantity sellMarket.bidQuantity
      let profitPerUnit := spread - (buyPrice + sellPrice) * (2 / 1000)
      let estimatedProfit := profitPerUnit * maxSize
      if estimatedProfit ≤ 0 then none
      else
        some { buyMarket := buyMarket.marketId
               sellMarket := sellMarket.marketId
               buyPrice := buyPrice
               sellPrice := sellPrice
               spread := spread
               spreadPercent := spreadPercent
               maxProfitableSize := maxSize
               estimatedProfit := estimatedProfit
               token := token }

/-- The distinct token symbols of a market list in first-occurrence order:
the iteration order of the record built by `groupByToken`. -/
def tokenKeys : List MarketSummary → List String
  | [] => []
  | m :: rest => m.token :: (tokenKeys rest).filter (fun t => !(t == m.token))

/-- All pairs `(l[i], l[j])` with `i < j`: the double loop of
`findOpportunities`. -/
def pairsAfter : List MarketSummary → List (MarketSummary × MarketSummary)
  | [] => []
  | m :: rest => rest.map (fun m2 => (m, m2)) ++ pairsAfter rest

/-- Descending order of `estimatedProfit`: the total preorder sorted by the
comparator `(a, b) => b.estimatedProfit - a.estimatedProfit`. -/
def profitGE (a b : ArbitrageOpportunity) : Prop :=
  b.estimatedProfit ≤ a.estimatedProfit

instance : DecidableRel profitGE := fun a b => by
  unfold profitGE; infer_instance

instance : IsTotal ArbitrageOpportunity profitGE :=
  ⟨fun a b => le_total b.estimatedProfit a.estimatedProfit⟩

instance : IsTrans ArbitrageOpportunity profitGE :=
  ⟨fun _ _ _ hab hbc => le_trans hbc hab⟩

/-- `ArbitrageDetector.findOpportunities(markets, minSpreadPercent)`:
group by token, scan every unordered pair of a group in both directions,
then sort the surviving opportunities by descending estimated profit. -/
def findOpportunities (markets : List MarketSummary)
    (minSpreadPercent : ℚ) : List ArbitrageOpportunity :=
  let opportunities := (tokenKeys markets).flatMap fun token =>
    let tokenMarkets := markets.filter (fun m => m.token == token)
    (pairsAfter tokenMarkets).flatMap fun p =>
      (checkArbitrage p.1 p.2 token minSpreadPercent).toList ++
        (checkArbitrage p.2 p.1 token minSpreadPercent).toList
  List.insertionSort profitGE opportunities

/-! ## LiquidityScorer -/

/-- The `LiquidityScore` record. -/
structure LiquidityScore where
  overall : ℚ
  depth : ℚ
  spread : ℚ
  concentration : ℚ
  resilience : ℚ
deriving DecidableEq, Repr

/-- `LiquidityScorer.calculateDepth`: average of the summed quantities of the
top ten levels of each side. -/
def calculateDepth (bids asks : List PriceLevel) : ℚ :=
  (sumQ (bids.take 10) + sumQ (asks.take 10)) / 2

/-- `LiquidityScorer.calculateSpread`: sentinel `100` when either side is
empty, otherwise `(bestAsk - bestBid) / bestBid` with
`bestBid = max(bid prices)` and `bestAsk = min(ask prices)`. -/
def calculateSpread (bids asks : List PriceLevel) : ℚ :=
  if bids.isEmpty || asks.isEmpty then 100
  else
    let bestBid := ((bids.map (fun lv => lv.price)).max?).getD 0
    let bestAsk := ((asks.map (fun lv => lv.price)).min?).getD 0
    (bestAsk - bestBid) / bestBid

/-- The summation `reduce((sum, q) => sum + q, 0)` over rationals. -/
def sumL (l : List ℚ) : ℚ :=
  l.foldl (fun s q => s + q) 0

/-- `LiquidityScorer.calculateConcentration`: Gini coefficient over the
quantities of all bid and ask levels combined. -/
def calculateConcentration (bids asks : List PriceLevel) : ℚ :=
  let allLevels := bids ++ asks
  let quantities :=
    List.insertionSort (fun a b : ℚ => a ≤ b) (allLevels.map (fun lv => lv.quantity))
  if quantities.isEmpty then 1
  else
    let n := quantities.length
    let totalQuantity := sumL quantities
    if totalQuantity = 0 then 1
    else
      let gini := quantities.enum.foldl
        (fun g p => g + (2 * ((p.1 : ℚ) + 1) - (n : ℚ) - 1) * p.2) 0
      gini / ((n : ℚ) * totalQuantity)

/-- JavaScript `Math.round`: round half towards positive infinity. -/
def jsRound (x : ℚ) : ℚ :=
  (⌊x + 1 / 2⌋ : ℤ)

/-- `LiquidityScorer.calculateScore(bids, asks)`. -/
def calculateScore (bids asks : List PriceLevel) : LiquidityScore :=
  let depth := calculateDepth bids asks
  let spread := calculateSpread bids asks
  let concentration := calculateConcentration bids asks
  let depthScore := min (depth / 100000 * 100) 100
  let spreadScore := max (100 - spread * 100) 0
  let concentrationScore := (1 - concentration) * 100
  let overall := depthScore * 0.4 + spreadScore * 0.4 + concentrationScore * 0.2
  { overall := jsRound (overall * 100) / 100
    depth := depth
    spread := spread
    concentration := concentration
    resilience := 0 }

/-! ## RouteOptimizer -/

/-- A market as passed to `findOptimalRoute`: `{marketId, orderbook}`. -/
structure RouteMarket where
  marketId : String
  orderbook : List PriceLevel
deriving DecidableEq, Repr

/-- The per-market precomputation of `findOptimalRoute`:
`maxLiquidity` sums all level quantities, `basePrice` is
`orderbook[0]?.price || 0`. -/
structure MarketAnalysis where
  marketId : String
  orderbook : List PriceLevel
  maxLiquidity : ℚ
  basePrice : ℚ
deriving DecidableEq, Repr

/-- The `markets.map(...)` step of `findOptimalRoute`. -/
def analyzeMarket (m : RouteMarket) : MarketAnalysis :=
  { marketId := m.marketId
    orderbook := m.orderbook
    maxLiquidity := sumQ m.orderbook
    basePrice := m.orderbook.headI.price }

/-- The market sort comparator of `findOptimalRoute`:
by `basePrice` ascending for buys, descending for sells. -/
def baseLE (side : Side) (a b : MarketAnalysis) : Prop :=
  match side with
  | .buy => a.basePrice ≤ b.basePrice
  | .sell => b.basePrice ≤ a.basePrice

instance (side : Side) : DecidableRel (baseLE side) := fun a b => by
  cases side <;> simp only [baseLE] <;> infer_instance

instance (side : Side) : IsTotal MarketAnalysis (baseLE side) := by
  cases side <;> exact ⟨fun a b => le_total _ _⟩

instance (side : Side) : IsTrans MarketAnalysis (baseLE side) := by
  cases side
  · exact ⟨fun _ _ _ hab hbc => le_trans hab hbc⟩
  · exact ⟨fun _ _ _ hab hbc => le_trans hbc hab⟩

/-- `marketAnalysis.sort(...)`: stable sort of the analysed markets by best
base price first. -/
def sortMarkets (side : Side) (ms : List MarketAnalysis) : List MarketAnalysis :=
  List.insertionSort (baseLE side) ms

/-- One allocation of the returned route. -/
structure RouteAllocation where
  marketId : String
  amount : ℚ
  price : ℚ
  slippage : ℚ
deriving DecidableEq, Repr

/-- The `OptimalRoute` record. -/
structure OptimalRoute where
  markets : List RouteAllocation
  totalAmount : ℚ
  averagePrice : ℚ
  totalSlippage : ℚ
  savings : ℚ
deriving DecidableEq, Repr

/-- The error thrown by `findOptimalRoute` when all markets together cannot
cover the requested amount. -/
inductive RouteError where
  | insufficientAggregateLiquidity (missing : ℚ)
deriving DecidableEq, Repr

/-- The greedy allocation loop of `findOptimalRoute`: for each market in
order, while any amount remains, try to fill `min(remaining, maxLiquidity)`;
a market whose slippage computation fails is skipped without consuming
the remaining amount.  Returns the allocations and the final remainder. -/
def allocLoop (side : Side) : List MarketAnalysis → ℚ → List RouteAllocation × ℚ
  | [], remaining => ([], remaining)
  | m :: rest, remaining =>
    if remaining ≤ 0 then ([], remaining)
    else
      let amountToFill := min remaining m.maxLiquidity
      match calculateSlippage m.orderbook amountToFill side with
      | .ok result =>
        let out := allocLoop side rest (remaining - amountToFill)
        ({ marketId := m.marketId
           amount := amountToFill
           price := result.actualPrice
           slippage := result.slippagePercent } :: out.1, out.2)
      | .error _ => allocLoop side rest remaining

set_option linter.unusedVariables false in
/-- `RouteOptimizer.findOptimalRoute(token, totalAmount, side, markets)`.
The trailing benchmark computation reads `sortedMarkets[0]`; when `markets`
is empty that access fails inside the `try` block, so the catch clause
yields `singleMarketCost = totalCost` there as well. -/
def findOptimalRoute (token : String) (totalAmount : ℚ) (side : Side)
    (markets : List RouteMarket) : Except RouteError OptimalRoute :=
  let marketAnalysis := markets.map analyzeMarket
  let sortedMarkets := sortMarkets side marketAnalysis
  let out := allocLoop side sortedMarkets totalAmount
  let allocations := out.1
  let remainingAmount := out.2
  if 0 < remainingAmount then
    .error (.insufficientAggregateLiquidity remainingAmount)
  else
    let totalCost := allocations.foldl (fun s a => s + a.amount * a.price) 0
    let averagePrice := totalCost / totalAmount
    let weightedSlippage :=
      allocations.foldl (fun s a => s + a.slippage * a.amount / totalAmount) 0
    let singleMarketCost :=
      match sortedMarkets with
      | [] => totalCost
      | best :: _ =>
        match calculateSlippage best.orderbook totalAmount side with
        | .ok singleResult => singleResult.totalCost
        | .error _ => totalCost
    let savings := singleMarketCost - totalCost
    .ok { markets := allocations
          totalAmount := totalAmount
          averagePrice := averagePrice
          totalSlippage := weightedSlippage
          savings := max savings 0 }

/-- The allocation amounts described by the specification: walk the markets
best price first, give each market `min(remaining, maxLiquidity)` until the
remainder reaches `0`; a market with no liquidity receives nothing. -/
def greedyAmounts : List MarketAnalysis → ℚ → List (String × ℚ)
  | [], _ => []
  | m :: rest, remaining =>
    if remaining ≤ 0 then []
    else if 0 < m.maxLiquidity then
      (m.marketId, min remaining m.maxLiquidity) ::
        greedyAmounts rest (remaining - min remaining m.maxLiquidity)
    else greedyAmounts rest remaining

/-- Total liquidity summed over every market's ladder. -/
def totalLadderQ (markets : List RouteMarket) : ℚ :=
  (markets.map (fun m => sumQ m.orderbook)).sum

/-! ## Helper lemmas: `sumQ`, `sortBook`, `fillWalk` -/

theorem sumQ_foldl (book : List PriceLevel) (a : ℚ) :
    book.foldl (fun s lv => s + lv.quantity) a = a + sumQ book := by
  induction book generalizing a with
  | nil => simp [sumQ]
  | cons lv rest ih =>
    simp only [sumQ, List.foldl_cons, zero_add] at *
    rw [ih, ih lv.quantity]
    ring

theorem sumQ_nil : sumQ [] = 0 := rfl

theorem sumQ_cons (lv : PriceLevel) (rest : List PriceLevel) :
    sumQ (lv :: rest) = lv.quantity + sumQ rest := by
  simp only [sumQ, List.foldl_cons, zero_add]
  exact sumQ_foldl rest lv.quantity

theorem sumQ_nonneg {book : List PriceLevel}
    (wf : ∀ lv ∈ book, 0 ≤ lv.quantity) : 0 ≤ sumQ book := by
  induction book with
  | nil => simp [sumQ_nil]
  | cons lv rest ih =>
    rw [sumQ_cons]
    have h1 := wf lv (List.mem_cons_self lv rest)
    have h2 := ih (fun x hx => wf x (List.mem_cons_of_mem lv hx))
    linarith

theorem sumQ_pos {book : List PriceLevel} (hne : book ≠ [])
    (wf : ∀ lv ∈ book, 0 < lv.quantity) : 0 < sumQ book := by
  cases book with
  | nil => exact absurd rfl hne
  | cons lv rest =>
    rw [sumQ_cons]
    have h1 := wf lv (List.mem_cons_self lv rest)
    have h2 : 0 ≤ sumQ rest :=
      sumQ_nonneg (fun x hx => le_of_lt (wf x (List.mem_cons_of_mem lv hx)))
    linarith

theorem sumQ_perm {book book' : List PriceLevel} (h : book.Perm book') :
    sumQ book = sumQ book' := by
  induction h with
  | nil => rfl
  | cons lv _ ih => rw [sumQ_cons, sumQ_cons, ih]
  | swap a b rest => rw [sumQ_cons, sumQ_cons, sumQ_cons, sumQ_cons]; ring
  | trans _ _ ih1 ih2 => rw [ih1, ih2]

theorem sortBook_perm (side : Side) (book : List PriceLevel) :
    (sortBook side book).Perm book :=
  List.perm_insertionSort _ book

theorem sumQ_sortBook (side : Side) (book : List PriceLevel) :
    sumQ (sortBook side book) = sumQ book :=
  sumQ_perm (sortBook_perm side book)

theorem sortBook_eq_nil_iff (side : Side) (book : List PriceLevel) :
    sortBook side book = [] ↔ book = [] := by
  constructor
  · intro h
    have := (sortBook_perm side book).length_eq
    rw [h] at this
    exact List.eq_nil_of_length_eq_zero this.symm
  · intro h; subst h; rfl

theorem mem_sortBook {side : Side} {book : List PriceLevel} {lv : PriceLevel} :
    lv ∈ sortBook side book ↔ lv ∈ book :=
  (sortBook_perm side book).mem_iff

/-- The filled quantity and the remaining size always sum to the requested size. -/
theorem fillWalk_filled_add_rem (book : List PriceLevel) (r : ℚ) :
    (fillWalk book r).2.1 + (fillWalk book r).2.2 = r := by
  induction book generalizing r with
  | nil => simp [fillWalk]
  | cons lv rest ih =>
    by_cases h : r ≤ 0
    · simp [fillWalk, h]
    · have := ih (r - min r lv.quantity)
      simp only [fillWalk, if_neg h]
      linarith

/-- With nonnegative quantities, the remaining size after the walk is
`max (r - sumQ book) (min r 0)`. -/
theorem fillWalk_rem (book : List PriceLevel) (r : ℚ)
    (wf : ∀ lv ∈ book, 0 ≤ lv.quantity) :
    (fillWalk book r).2.2 = max (r - sumQ book) (min r 0) := by
  induction book generalizing r with
  | nil =>
    simp only [fillWalk, sumQ_nil, sub_zero]
    rw [max_eq_left (min_le_left r 0)]
  | cons lv rest ih =>
    have hq : 0 ≤ lv.quantity := wf lv (List.mem_cons_self lv rest)
    have hs : 0 ≤ sumQ rest :=
      sumQ_nonneg (fun x hx => wf x (List.mem_cons_of_mem lv hx))
    by_cases h : r ≤ 0
    · simp only [fillWalk, if_pos h, sumQ_cons]
      rw [min_eq_left h, max_eq_right (by linarith)]
    · push_neg at h
      simp only [fillWalk, if_neg (not_le.mpr h), sumQ_cons]
      rw [ih (r - min r lv.quantity) (fun x hx => wf x (List.mem_cons_of_mem lv hx))]
      rw [min_eq_right (le_of_lt h)]
      have hrt : 0 ≤ r - min r lv.quantity := by
        rcases le_total r lv.quantity with hc | hc
        · rw [min_eq_left hc]; linarith
        · rw [min_eq_right hc]; linarith
      rw [min_eq_right hrt]
      rcases le_total r lv.quantity with hc | hc
      · rw [min_eq_left hc]
        have : r - lv.quantity - sumQ rest ≤ 0 := by linarith
        rw [max_eq_right (by linarith : r - r - sumQ rest ≤ 0),
          max_eq_right (by linarith : r - (lv.quantity + sumQ rest) ≤ 0)]
      · rw [min_eq_right hc]
        have : r - lv.quantity - sumQ rest = r - (lv.quantity + sumQ rest) := by ring
        rw [this]

/-- With nonnegative quantities and a positive request not exceeding the total
quantity, the remaining size after the walk is `0`. -/
theorem fillWalk_rem_zero (book : List PriceLevel) (r : ℚ)
    (wf : ∀ lv ∈ book, 0 ≤ lv.quantity) (hr : 0 < r) (hliq : r ≤ sumQ book) :
    (fillWalk book r).2.2 = 0 := by
  rw [fillWalk_rem book r wf, min_eq_right (le_of_lt hr),
    max_eq_right (by linarith)]

/-! ## Characterisation of `calculateSlippage` -/

theorem calcSlippage_invalid {book : List PriceLevel} {size : ℚ} {side : Side}
    (h : size ≤ 0) : calculateSlippage book size side = .error .invalidOrderSize := by
  simp [calculateSlippage, h]

theorem calcSlippage_empty {size : ℚ} {side : Side} (h : 0 < size) :
    calculateSlippage [] size side = .error .emptyLadder := by
  simp [calculateSlippage, not_le.mpr h]

/-- On insufficient liquidity the error reports the total ladder quantity as
the fillable amount and the requested size. -/
theorem calcSlippage_insufficient {book : List PriceLevel} {size : ℚ} {side : Side}
    (wf : ∀ lv ∈ book, 0 ≤ lv.quantity) (hpos : 0 < size) (hne : book ≠ [])
    (h : sumQ book < size) :
    calculateSlippage book size side =
      .error (.insufficientLiquidity (sumQ book) size) := by
  have hwfs : ∀ lv ∈ sortBook side book, 0 ≤ lv.quantity :=
    fun lv hlv => wf lv (mem_sortBook.mp hlv)
  have hrem : (fillWalk (sortBook side book) size).2.2 = size - sumQ book := by
    rw [fillWalk_rem _ _ hwfs, sumQ_sortBook, min_eq_right (le_of_lt hpos),
      max_eq_left (by linarith)]
  have hfill : (fillWalk (sortBook side book) size).2.1 = sumQ book := by
    have := fillWalk_filled_add_rem (sortBook side book) size
    rw [hrem] at this
    linarith
  simp only [calculateSlippage, if_neg (not_le.mpr hpos),
    List.isEmpty_iff, if_neg hne]
  rw [if_pos (by rw [hrem]; linarith), hfill]

/-- On sufficient liquidity `calculateSlippage` succeeds, and every field of
the result is given explicitly in terms of the sorted book and the fill walk. -/
theorem calcSlippage_ok {book : List PriceLevel} {size : ℚ} {side : Side}
    (wf : ∀ lv ∈ book, 0 ≤ lv.quantity) (hpos : 0 < size)
    (hliq : size ≤ sumQ book) :
    calculateSlippage book size side =
      .ok { expectedPrice := (sortBook side book).headI.price
            actualPrice := (fillWalk (sortBook side book) size).1 / size
            slippagePercent :=
              |((fillWalk (sortBook side book) size).1 / size -
                  (sortBook side book).headI.price) /
                (sortBook side book).headI.price * 100|
            priceImpact :=
              |((fillWalk (sortBook side book) size).1 / size -
                  (sortBook side book).headI.price) /
                (sortBook side book).headI.price * 100|
            totalCost := (fillWalk (sortBook side book) size).1 } := by
  have hne : book ≠ [] := by
    intro h
    subst h
    rw [sumQ_nil] at hliq
    linarith
  have hwfs : ∀ lv ∈ sortBook side book, 0 ≤ lv.quantity :=
    fun lv hlv => wf lv (mem_sortBook.mp hlv)
  have hrem : (fillWalk (sortBook side book) size).2.2 = 0 :=
    fillWalk_rem_zero _ _ hwfs hpos (by rwa [sumQ_sortBook])
  have hfill : (fillWalk (sortBook side book) size).2.1 = size := by
    have := fillWalk_filled_add_rem (sortBook side book) size
    rw [hrem] at this
    linarith
  simp only [calculateSlippage, if_neg (not_le.mpr hpos),
    List.isEmpty_iff, if_neg hne]
  rw [if_neg (by rw [hrem]; exact lt_irrefl 0), hfill]

/-- Full case analysis of `calculateSlippage` for ladders with nonnegative
quantities. -/
theorem calcSlippage_cases (book : List PriceLevel) (size : ℚ) (side : Side)
    (wf : ∀ lv ∈ book, 0 ≤ lv.quantity) :
    calculateSlippage book size side =
      if size ≤ 0 then .error .invalidOrderSize
      else if book = [] then .error .emptyLadder
      else if sumQ book < size then
        .error (.insufficientLiquidity (sumQ book) size)
      else
        .ok { expectedPrice := (sortBook side book).headI.price
              actualPrice := (fillWalk (sortBook side book) size).1 / size
              slippagePercent :=
                |((fillWalk (sortBook side book) size).1 / size -
                    (sortBook side book).headI.price) /
                  (sortBook side book).headI.price * 100|
              priceImpact :=
                |((fillWalk (sortBook side book) size).1 / size -
                    (sortBook side book).headI.price) /
                  (sortBook side book).headI.price * 100|
              totalCost := (fillWalk (sortBook side book) size).1 } := by
  split_ifs with h1 h2 h3
  · exact calcSlippage_invalid h1
  · subst h2; exact calcSlippage_empty (not_le.mp h1)
  · exact calcSlippage_insufficient wf (not_le.mp h1) h2 h3
  · exact calcSlippage_ok wf (not_le.mp h1) (not_lt.mp h3)

/-- Any size strictly beyond the total ladder quantity makes
`calculateSlippage` fail, hence `toOption` gives `none`. -/
theorem calcSlippage_toOption_none {book : List PriceLevel} {size : ℚ}
    {side : Side} (wf : ∀ lv ∈ book, 0 ≤ lv.quantity)
    (h : sumQ book < size) :
    (calculateSlippage book size side).toOption = none := by
  rw [calcSlippage_cases book size side wf]
  split_ifs with h1 h2
  · rfl
  · rfl
  · rfl

/-! ## Claim theorems -/

/-- C1: for every ladder with nonnegative quantities whose total quantity is
at least `orderSize`, and every `orderSize > 0` and side, `calculateSlippage`
succeeds; the walk fills exactly `orderSize`; `totalCost` is the literal
accumulated sum of `consumed * price` over the sorted levels walked
best-price-first; `actualPrice = totalCost / filled`; `expectedPrice` is the
price of the first element of the ladder sorted ascending for buy and
descending for sell; and `slippagePercent = priceImpact =
|(actualPrice - expectedPrice) / expectedPrice| * 100`. -/
theorem C1_calculateSlippage_success (orderbook : List PriceLevel)
    (orderSize : ℚ) (side : Side)
    (wf : ∀ lv ∈ orderbook, 0 ≤ lv.quantity)
    (hpos : 0 < orderSize) (hliq : orderSize ≤ sumQ orderbook) :
    ∃ res, calculateSlippage orderbook orderSize side = .ok res ∧
      (fillWalk (sortBook side orderbook) orderSize).2.1 = orderSize ∧
      res.totalCost = (fillWalk (sortBook side orderbook) orderSize).1 ∧
      res.actualPrice = res.totalCost / orderSize ∧
      res.expectedPrice = (sortBook side orderbook).headI.price ∧
      res.slippagePercent =
        |(res.actualPrice - res.expectedPrice) / res.expectedPrice| * 100 ∧
      res.priceImpact = res.slippagePercent := by
  have hwfs : ∀ lv ∈ sortBook side orderbook, 0 ≤ lv.quantity :=
    fun lv hlv => wf lv (mem_sortBook.mp hlv)
  have hrem : (fillWalk (sortBook side orderbook) orderSize).2.2 = 0 :=
    fillWalk_rem_zero _ _ hwfs hpos (by rwa [sumQ_sortBook])
  have hfill : (fillWalk (sortBook side orderbook) orderSize).2.1 = orderSize := by
    have := fillWalk_filled_add_rem (sortBook side orderbook) orderSize
    rw [hrem] at this
    linarith
  refine ⟨_, calcSlippage_ok wf hpos hliq, hfill, rfl, rfl, rfl, ?_, rfl⟩
  show |_ * 100| = |_| * 100
  rw [abs_mul]
  norm_num

/-- Witness for C1 on the scenario-A ladder with a buy of 100. -/
theorem C1_witness :
    ∃ res, calculateSlippage [⟨100, 50⟩, ⟨101, 50⟩, ⟨102, 100⟩] 100 .buy =
        .ok res ∧
      (fillWalk (sortBook .buy [⟨100, 50⟩, ⟨101, 50⟩, ⟨102, 100⟩]) 100).2.1 = 100 ∧
      res.totalCost =
        (fillWalk (sortBook .buy [⟨100, 50⟩, ⟨101, 50⟩, ⟨102, 100⟩]) 100).1 ∧
      res.actualPrice = res.totalCost / 100 ∧
      res.expectedPrice =
        (sortBook .buy [⟨100, 50⟩, ⟨101, 50⟩, ⟨102, 100⟩]).headI.price ∧
      res.slippagePercent =
        |(res.actualPrice - res.expectedPrice) / res.expectedPrice| * 100 ∧
      res.priceImpact = res.slippagePercent :=
  C1_calculateSlippage_success [⟨100, 50⟩, ⟨101, 50⟩, ⟨102, 100⟩] 100 .buy
    (by
      intro lv hlv
      simp only [List.mem_cons, List.not_mem_nil, or_false] at hlv
      rcases hlv with rfl | rfl | rfl <;> norm_num)
    (by norm_num)
    (by norm_num [sumQ_cons, sumQ_nil])

/-- C2: `calculateSlippage` fails `InvalidOrderSize` iff `orderSize ≤ 0`;
given a positive size it fails `EmptyLadder` iff the ladder is empty; given a
positive size and a non-empty ladder it fails `InsufficientLiquidity` iff the
total ladder quantity is strictly below the size, the error reporting the
fillable quantity and the requested quantity; in every other case it
succeeds. -/
theorem C2_calculateSlippage_errors (orderbook : List PriceLevel)
    (orderSize : ℚ) (side : Side)
    (wf : ∀ lv ∈ orderbook, 0 ≤ lv.quantity) :
    (calculateSlippage orderbook orderSize side = .error .invalidOrderSize ↔
      orderSize ≤ 0) ∧
    (0 < orderSize →
      (calculateSlippage orderbook orderSize side = .error .emptyLadder ↔
        orderbook = [])) ∧
    (0 < orderSize → orderbook ≠ [] →
      (((∃ filled requested, calculateSlippage orderbook orderSize side =
            .error (.insufficientLiquidity filled requested)) ↔
          sumQ orderbook < orderSize) ∧
        (sumQ orderbook < orderSize →
          calculateSlippage orderbook orderSize side =
            .error (.insufficientLiquidity (sumQ orderbook) orderSize)))) ∧
    (0 < orderSize → orderbook ≠ [] → orderSize ≤ sumQ orderbook →
      ∃ res, calculateSlippage orderbook orderSize side = .ok res) := by
  rw [calcSlippage_cases orderbook orderSize side wf]
  split_ifs with h1 h2 h3
  · exact ⟨by simp [h1], fun hp => absurd hp (not_lt.mpr h1),
      fun hp => absurd hp (not_lt.mpr h1), fun hp => absurd hp (not_lt.mpr h1)⟩
  · refine ⟨⟨fun h => by simp at h, fun h => absurd h h1⟩, fun _ => by simp [h2],
      fun _ hne => absurd h2 hne, fun _ hne => absurd h2 hne⟩
  · refine ⟨⟨fun h => by simp at h, fun h => absurd h h1⟩,
      fun _ => ⟨fun h => by simp at h, fun h => absurd h h2⟩,
      fun _ _ => ⟨⟨fun _ => h3, fun _ => ⟨sumQ orderbook, orderSize, rfl⟩⟩,
        fun _ => rfl⟩,
      fun _ _ hle => absurd h3 (not_lt.mpr hle)⟩
  · refine ⟨⟨fun h => by simp at h, fun h => absurd h h1⟩,
      fun _ => ⟨fun h => by simp at h, fun h => absurd h h2⟩,
      fun _ _ => ⟨⟨fun hex => ?_, fun hlt => absurd hlt h3⟩,
        fun hlt => absurd hlt h3⟩,
      fun _ _ _ => ⟨_, rfl⟩⟩
    rcases hex with ⟨f, req, hx⟩
    simp at hx

/-- Witness for C2: each error kind and the success case at concrete inputs. -/
theorem C2_witness :
    calculateSlippage [⟨100, 10⟩] (-1) .buy = .error .invalidOrderSize ∧
    calculateSlippage ([] : List PriceLevel) 5 .sell = .error .emptyLadder ∧
    calculateSlippage [⟨100, 10⟩] 20 .buy =
      .error (.insufficientLiquidity 10 20) ∧
    ∃ res, calculateSlippage [⟨100, 10⟩] 10 .buy = .ok res := by
  have wf1 : ∀ lv ∈ [(⟨100, 10⟩ : PriceLevel)], 0 ≤ lv.quantity := by
    intro lv hlv
    simp only [List.mem_cons, List.not_mem_nil, or_false] at hlv
    subst hlv
    norm_num
  have hsum : sumQ [(⟨100, 10⟩ : PriceLevel)] = 10 := by
    norm_num [sumQ_cons, sumQ_nil]
  refine ⟨(C2_calculateSlippage_errors [⟨100, 10⟩] (-1) .buy wf1).1.mpr (by norm_num),
    ((C2_calculateSlippage_errors [] 5 .sell (by simp)).2.1 (by norm_num)).mpr rfl,
    ?_, (C2_calculateSlippage_errors [⟨100, 10⟩] 10 .buy wf1).2.2.2 (by norm_num)
      (by simp) (by rw [hsum])⟩
  have h := ((C2_calculateSlippage_errors [⟨100, 10⟩] 20 .buy wf1).2.2.1
    (by norm_num) (by simp)).2 (by rw [hsum]; norm_num)
  rwa [hsum] at h

/-- C7: `calculateSlippageLadder` is total and maps each requested size
independently through `calculateSlippage`, failures becoming `none` slots;
in particular a size exceeding the total ladder quantity yields `none` for
its slot. -/
theorem C7_calculateSlippageLadder (orderbook : List PriceLevel) (side : Side)
    (steps : List ℚ) (wf : ∀ lv ∈ orderbook, 0 ≤ lv.quantity) :
    (calculateSlippageLadder orderbook side steps =
      steps.map fun size =>
        { orderSize := size
          slippage := (calculateSlippage orderbook size side).toOption }) ∧
    (∀ i, i < steps.length → sumQ orderbook < steps.getD i 0 →
      ((calculateSlippageLadder orderbook side steps).getD i
          { orderSize := 0, slippage := none }).slippage = none) := by
  refine ⟨rfl, fun i hi hsum => ?_⟩
  rw [List.getD_eq_getElem?_getD, List.getElem?_eq_getElem hi] at hsum
  simp only [Option.getD_some] at hsum
  rw [calculateSlippageLadder, List.getD_eq_getElem?_getD, List.getElem?_map,
    List.getElem?_eq_getElem hi]
  simp only [Option.map_some', Option.getD_some]
  exact calcSlippage_toOption_none wf hsum

/-- Witness for C7: ladder `[(100,10),(101,10)]` with sizes `[5, 25]`; the
slot for 25 (beyond the total quantity 20) is `none`. -/
theorem C7_witness :
    ((calculateSlippageLadder [⟨100, 10⟩, ⟨101, 10⟩] .buy [5, 25]).getD 1
        { orderSize := 0, slippage := none }).slippage = none :=
  (C7_calculateSlippageLadder [⟨100, 10⟩, ⟨101, 10⟩] .buy [5, 25]
    (by
      intro lv hlv
      simp only [List.mem_cons, List.not_mem_nil, or_false] at hlv
      rcases hlv with rfl | rfl <;> norm_num)).2 1 (by norm_num)
    (by norm_num [sumQ_cons, sumQ_nil, List.getD])

/-- C8: scenario A, ladder `[(100,50),(101,50),(102,100)]` with a buy of 100:
`expectedPrice = 100`, `actualPrice = 100.5`, `slippagePercent = 0.5`,
`totalCost = 10050`. -/
theorem C8_scenarioA :
    calculateSlippage [⟨100, 50⟩, ⟨101, 50⟩, ⟨102, 100⟩] 100 .buy =
      .ok { expectedPrice := 100, actualPrice := 100.5, slippagePercent := 0.5,
            priceImpact := 0.5, totalCost := 10050 } := by
  norm_num [calculateSlippage, sortBook, fillWalk, sideLE, List.insertionSort,
    List.orderedInsert, List.headI, abs]

/-! ## Store lemmas for the mutation claim -/

theorem storeGet_append_self (h : ArrayStore) (v : List PriceLevel) :
    storeGet (h ++ [v]) (List.length h) = v := by
  simp [storeGet]

theorem storeGet_append_lt (h : ArrayStore) (v : List PriceLevel) {r : Nat}
    (hr : r < List.length h) :
    storeGet (h ++ [v]) r = storeGet h r := by
  simp [storeGet, List.getD_eq_getElem?_getD, List.getElem?_append, hr]

/-- C9: `calculateSlippage` never mutates the caller's orderbook.  Run with
the caller's array held in a store of arrays, the call leaves the content
behind the caller's reference untouched (the sort operates on the freshly
allocated private copy), and the returned outcome is the pure
`calculateSlippage` of the original ladder. -/
theorem C9_no_mutation (h : ArrayStore) (r : Nat) (orderSize : ℚ) (side : Side)
    (hr : r < List.length h) :
    storeGet (calculateSlippageStore h r orderSize side).2 r = storeGet h r ∧
    (calculateSlippageStore h r orderSize side).1 =
      calculateSlippage (storeGet h r) orderSize side := by
  have hcopy : storeGet (h ++ [storeGet h r]) (List.length h) =
      storeGet h r := storeGet_append_self h (storeGet h r)
  have hh2 : (h ++ [storeGet h r]).set (List.length h)
        (sortBook side (storeGet (h ++ [storeGet h r]) (List.length h))) =
      h ++ [sortBook side (storeGet h r)] := by
    rw [hcopy]
    simp [List.set_append]
  have hself : storeGet (h ++ [sortBook side (storeGet h r)]) (List.length h) =
      sortBook side (storeGet h r) := storeGet_append_self _ _
  have huntouched : storeGet (h ++ [sortBook side (storeGet h r)]) r =
      storeGet h r := storeGet_append_lt _ _ hr
  by_cases h0 : orderSize ≤ 0
  · simp [calculateSlippageStore, calculateSlippage, h0]
  · by_cases hemp : (storeGet h r).isEmpty
    · simp [calculateSlippageStore, calculateSlippage, h0, hemp]
    · simp only [calculateSlippageStore, calculateSlippage, if_neg h0,
        if_neg hemp, hh2, hself, huntouched]
      by_cases hfill :
          0 < (fillWalk (sortBook side (storeGet h r)) orderSize).2.2 <;>
        simp [hfill, huntouched]

/-- Witness for C9 at a one-array store. -/
theorem C9_witness :
    storeGet (calculateSlippageStore [[⟨100, 50⟩]] 0 10 .buy).2 0 =
      storeGet [[⟨100, 50⟩]] 0 ∧
    (calculateSlippageStore [[⟨100, 50⟩]] 0 10 .buy).1 =
      calculateSlippage (storeGet [[⟨100, 50⟩]] 0) 10 .buy :=
  C9_no_mutation [[⟨100, 50⟩]] 0 10 .buy (by decide)

/-- C4: `checkArbitrage` returns an opportunity only if
`buy.bestAsk < sell.bestBid`, with `spread = sell.bestBid - buy.bestAsk`,
`spreadPercent = spread / buy.bestAsk * 100` at least `minSpreadPercent`,
`maxProfitableSize = min(buy.askQuantity, sell.bidQuantity)`,
`estimatedProfit = (spread - (buyPrice + sellPrice) * 0.002) *
maxProfitableSize > 0`; and it returns `none` whenever the spread percent is
below `minSpreadPercent` or the estimated profit is nonpositive. -/
theorem C4_checkArbitrage (buy sell : MarketSummary) (token : String)
    (minSpreadPercent : ℚ) :
    (∀ opp, checkArbitrage buy sell token minSpreadPercent = some opp →
      buy.bestAsk < sell.bestBid ∧
      opp.buyPrice = buy.bestAsk ∧
      opp.sellPrice = sell.bestBid ∧
      opp.spread = sell.bestBid - buy.bestAsk ∧
      opp.spreadPercent = opp.spread / buy.bestAsk * 100 ∧
      minSpreadPercent ≤ opp.spreadPercent ∧
      opp.maxProfitableSize = min buy.askQuantity sell.bidQuantity ∧
      opp.estimatedProfit =
        (opp.spread - (opp.buyPrice + opp.sellPrice) * (2 / 1000)) *
          opp.maxProfitableSize ∧
      0 < opp.estimatedProfit ∧
      opp.buyMarket = buy.marketId ∧
      opp.sellMarket = sell.marketId ∧
      opp.token = token) ∧
    ((sell.bestBid - buy.bestAsk) / buy.bestAsk * 100 < minSpreadPercent →
      checkArbitrage buy sell token minSpreadPercent = none) ∧
    (((sell.bestBid - buy.bestAsk) -
          (buy.bestAsk + sell.bestBid) * (2 / 1000)) *
        min buy.askQuantity sell.bidQuantity ≤ 0 →
      checkArbitrage buy sell token minSpreadPercent = none) := by
  refine ⟨fun opp hopp => ?_, fun hlow => ?_, fun hprof => ?_⟩
  · simp only [checkArbitrage] at hopp
    split_ifs at hopp with h1 h2 h3
    rw [Option.some.injEq] at hopp
    subst hopp
    refine ⟨not_le.mp h1, rfl, rfl, rfl, rfl, not_lt.mp h2, rfl, rfl,
      not_le.mp h3, rfl, rfl, rfl⟩
  · simp only [checkArbitrage]
    split_ifs with h1
    · rfl
    · rfl
  · simp only [checkArbitrage]
    split_ifs with h1 h2
    · rfl
    · rfl
    · rfl

/-- Witness for C4: a concrete profitable pair, a pair rejected for a thin
spread, and a pair rejected for nonpositive profit. -/
theorem C4_witness :
    ((⟨"A", "T", 0, 100, 0, 3⟩ : MarketSummary).bestAsk <
        (⟨"B", "T", 110, 0, 2, 0⟩ : MarketSummary).bestBid ∧
      (⟨"A", "B", 100, 110, 10, 10, 2, 958 / 50, "T"⟩ :
          ArbitrageOpportunity).buyPrice =
        (⟨"A", "T", 0, 100, 0, 3⟩ : MarketSummary).bestAsk ∧
      (⟨"A", "B", 100, 110, 10, 10, 2, 958 / 50, "T"⟩ :
          ArbitrageOpportunity).sellPrice =
        (⟨"B", "T", 110, 0, 2, 0⟩ : MarketSummary).bestBid ∧
      (⟨"A", "B", 100, 110, 10, 10, 2, 958 / 50, "T"⟩ :
          ArbitrageOpportunity).spread =
        (⟨"B", "T", 110, 0, 2, 0⟩ : MarketSummary).bestBid -
          (⟨"A", "T", 0, 100, 0, 3⟩ : MarketSummary).bestAsk ∧
      (⟨"A", "B", 100, 110, 10, 10, 2, 958 / 50, "T"⟩ :
          ArbitrageOpportunity).spreadPercent =
        (⟨"A", "B", 100, 110, 10, 10, 2, 958 / 50, "T"⟩ :
            ArbitrageOpportunity).spread /
          (⟨"A", "T", 0, 100, 0, 3⟩ : MarketSummary).bestAsk * 100 ∧
      1 ≤ (⟨"A", "B", 100, 110, 10, 10, 2, 958 / 50, "T"⟩ :
          ArbitrageOpportunity).spreadPercent ∧
      (⟨"A", "B", 100, 110, 10, 10, 2, 958 / 50, "T"⟩ :
          ArbitrageOpportunity).maxProfitableSize =
        min (⟨"A", "T", 0, 100, 0, 3⟩ : MarketSummary).askQuantity
          (⟨"B", "T", 110, 0, 2, 0⟩ : MarketSummary).bidQuantity ∧
      (⟨"A", "B", 100, 110, 10, 10, 2, 958 / 50, "T"⟩ :
          ArbitrageOpportunity).estimatedProfit =
        ((⟨"A", "B", 100, 110, 10, 10, 2, 958 / 50, "T"⟩ :
              ArbitrageOpportunity).spread -
            ((⟨"A", "B", 100, 110, 10, 10, 2, 958 / 50, "T"⟩ :
                  ArbitrageOpportunity).buyPrice +
                (⟨"A", "B", 100, 110, 10, 10, 2, 958 / 50, "T"⟩ :
                    ArbitrageOpportunity).sellPrice) * (2 / 1000)) *
          (⟨"A", "B", 100, 110, 10, 10, 2, 958 / 50, "T"⟩ :
              ArbitrageOpportunity).maxProfitableSize ∧
      0 < (⟨"A", "B", 100, 110, 10, 10, 2, 958 / 50, "T"⟩ :
          ArbitrageOpportunity).estimatedProfit ∧
      (⟨"A", "B", 100, 110, 10, 10, 2, 958 / 50, "T"⟩ :
          ArbitrageOpportunity).buyMarket =
        (⟨"A", "T", 0, 100, 0, 3⟩ : MarketSummary).marketId ∧
      (⟨"A", "B", 100, 110, 10, 10, 2, 958 / 50, "T"⟩ :
          ArbitrageOpportunity).sellMarket =
        (⟨"B", "T", 110, 0, 2, 0⟩ : MarketSummary).marketId ∧
      (⟨"A", "B", 100, 110, 10, 10, 2, 958 / 50, "T"⟩ :
          ArbitrageOpportunity).token = "T") ∧
    checkArbitrage ⟨"A", "T", 0, 100, 0, 3⟩ ⟨"B", "T", 100.2, 0, 2, 0⟩ "T" 1 =
      none ∧
    checkArbitrage ⟨"A", "T", 0, 100, 0, 3⟩ ⟨"B", "T", 100.3, 0, 2, 0⟩ "T"
      (1 / 10) = none := by
  refine ⟨(C4_checkArbitrage ⟨"A", "T", 0, 100, 0, 3⟩ ⟨"B", "T", 110, 0, 2, 0⟩
      "T" 1).1 ⟨"A", "B", 100, 110, 10, 10, 2, 958 / 50, "T"⟩ ?_,
    (C4_checkArbitrage ⟨"A", "T", 0, 100, 0, 3⟩ ⟨"B", "T", 100.2, 0, 2, 0⟩
      "T" 1).2.1 (by norm_num),
    (C4_checkArbitrage ⟨"A", "T", 0, 100, 0, 3⟩ ⟨"B", "T", 100.3, 0, 2, 0⟩
      "T" (1 / 10)).2.2 (by norm_num)⟩
  norm_num [checkArbitrage]

/-! ## LiquidityScorer lemmas -/

theorem sumL_foldl (l : List ℚ) (a : ℚ) :
    l.foldl (fun s q => s + q) a = a + l.sum := by
  induction l generalizing a with
  | nil => simp
  | cons q rest ih => simp [ih, add_assoc]

theorem sumL_eq_sum (l : List ℚ) : sumL l = l.sum := by
  simpa [sumL] using sumL_foldl l 0

theorem sumQ_eq_map_sum (book : List PriceLevel) :
    sumQ book = (book.map (fun lv => lv.quantity)).sum := by
  induction book with
  | nil => rfl
  | cons lv rest ih => rw [sumQ_cons, List.map_cons, List.sum_cons, ih]

/-- The Gini computation returns the degenerate value 1 whenever there are no
levels at all or the combined quantity is zero. -/
theorem concentration_degenerate (bids asks : List PriceLevel)
    (h : bids ++ asks = [] ∨ sumQ bids + sumQ asks = 0) :
    calculateConcentration bids asks = 1 := by
  simp only [calculateConcentration]
  rcases h with h | h
  · rw [h]
    simp
  · by_cases hemp : (List.insertionSort (fun a b : ℚ => a ≤ b)
        ((bids ++ asks).map (fun lv => lv.quantity))).isEmpty
    · rw [if_pos hemp]
    · have htot : sumL (List.insertionSort (fun a b : ℚ => a ≤ b)
          ((bids ++ asks).map (fun lv => lv.quantity))) = 0 := by
        rw [sumL_eq_sum, (List.perm_insertionSort _ _).sum_eq,
          List.map_append, List.sum_append, ← sumQ_eq_map_sum,
          ← sumQ_eq_map_sum]
        exact h
      rw [if_neg hemp, if_pos htot]

/-- C6: `calculateScore` returns `concentration = 1` when there are no levels
or the combined quantity of all levels is zero, `spread = 100` when either
side is empty, and `resilience = 0` always. -/
theorem C6_calculateScore (bids asks : List PriceLevel) :
    ((bids ++ asks = [] ∨ sumQ bids + sumQ asks = 0) →
      (calculateScore bids asks).concentration = 1) ∧
    ((bids = [] ∨ asks = []) → (calculateScore bids asks).spread = 100) ∧
    (calculateScore bids asks).resilience = 0 := by
  refine ⟨fun h => ?_, fun h => ?_, ?_⟩
  · simp only [calculateScore]
    exact concentration_degenerate bids asks h
  · simp only [calculateScore, calculateSpread]
    rcases h with h | h <;> subst h <;> simp
  · simp [calculateScore]

/-- Witness for C6: one zero-quantity bid level and no asks. -/
theorem C6_witness :
    (calculateScore [⟨5, 0⟩] []).concentration = 1 ∧
    (calculateScore [⟨5, 0⟩] []).spread = 100 ∧
    (calculateScore [⟨5, 0⟩] []).resilience = 0 :=
  ⟨(C6_calculateScore [⟨5, 0⟩] []).1
      (Or.inr (by norm_num [sumQ_cons, sumQ_nil])),
    (C6_calculateScore [⟨5, 0⟩] []).2.1 (Or.inr rfl),
    (C6_calculateScore [⟨5, 0⟩] []).2.2⟩

/-! ## ArbitrageDetector lemmas -/

theorem pairsAfter_mem {l : List MarketSummary}
    {p : MarketSummary × MarketSummary} (hp : p ∈ pairsAfter l) :
    p.1 ∈ l ∧ p.2 ∈ l := by
  induction l with
  | nil => simp [pairsAfter] at hp
  | cons m rest ih =>
    simp only [pairsAfter, List.mem_append, List.mem_map] at hp
    rcases hp with ⟨m2, hm2, hp⟩ | hp
    · subst hp
      exact ⟨List.mem_cons_self m rest, List.mem_cons_of_mem m hm2⟩
    · exact ⟨List.mem_cons_of_mem m (ih hp).1, List.mem_cons_of_mem m (ih hp).2⟩

/-- Basic facts about a returned opportunity: market ids, token and the
minimum-spread bound. -/
theorem checkArbitrage_some_basic {b s : MarketSummary} {t : String}
    {msp : ℚ} {opp : ArbitrageOpportunity}
    (h : checkArbitrage b s t msp = some opp) :
    opp.buyMarket = b.marketId ∧ opp.sellMarket = s.marketId ∧
      opp.token = t ∧ msp ≤ opp.spreadPercent := by
  simp only [checkArbitrage] at h
  split_ifs at h with h1 h2 h3
  rw [Option.some.injEq] at h
  subst h
  exact ⟨rfl, rfl, rfl, not_lt.mp h2⟩

/-- C5: every opportunity returned by `findOpportunities` has
`spreadPercent ≥ minSpreadPercent`, its buy and sell markets are input
markets carrying the opportunity's own token, and the result is sorted in
descending order of `estimatedProfit`. -/
theorem C5_findOpportunities (markets : List MarketSummary)
    (minSpreadPercent : ℚ) :
    (∀ opp ∈ findOpportunities markets minSpreadPercent,
      minSpreadPercent ≤ opp.spreadPercent ∧
      (∃ bm ∈ markets, opp.buyMarket = bm.marketId ∧
        bm.token = opp.token) ∧
      (∃ sm ∈ markets, opp.sellMarket = sm.marketId ∧
        sm.token = opp.token)) ∧
    List.Sorted profitGE (findOpportunities markets minSpreadPercent) := by
  constructor
  · intro opp hopp
    simp only [findOpportunities, List.mem_insertionSort,
      List.mem_flatMap, List.mem_append, Option.mem_toList,
      Option.mem_def] at hopp
    obtain ⟨t, ht, p, hp, hcheck⟩ := hopp
    have hmem := pairsAfter_mem hp
    have h1 : p.1 ∈ markets ∧ p.1.token = t := by
      have := List.mem_filter.mp hmem.1
      exact ⟨this.1, by simpa using this.2⟩
    have h2 : p.2 ∈ markets ∧ p.2.token = t := by
      have := List.mem_filter.mp hmem.2
      exact ⟨this.1, by simpa using this.2⟩
    rcases hcheck with hcheck | hcheck
    · obtain ⟨hb, hs, htok, hmin⟩ := checkArbitrage_some_basic hcheck
      exact ⟨hmin, ⟨p.1, h1.1, hb, by rw [h1.2, htok]⟩,
        ⟨p.2, h2.1, hs, by rw [h2.2, htok]⟩⟩
    · obtain ⟨hb, hs, htok, hmin⟩ := checkArbitrage_some_basic hcheck
      exact ⟨hmin, ⟨p.2, h2.1, hb, by rw [h2.2, htok]⟩,
        ⟨p.1, h1.1, hs, by rw [h1.2, htok]⟩⟩
  · simp only [findOpportunities]
    exact List.sorted_insertionSort profitGE _

/-- Witness for C5 on a concrete two-market list with one opportunity. -/
theorem C5_witness :
    1 ≤ (⟨"A", "B", 100, 110, 10, 10, 1, 479 / 50, "T"⟩ :
        ArbitrageOpportunity).spreadPercent ∧
    (∃ bm ∈ [(⟨"A", "T", 0, 100, 0, 1⟩ : MarketSummary),
        ⟨"B", "T", 110, 200, 1, 1⟩],
      (⟨"A", "B", 100, 110, 10, 10, 1, 479 / 50, "T"⟩ :
          ArbitrageOpportunity).buyMarket = bm.marketId ∧
        bm.token = (⟨"A", "B", 100, 110, 10, 10, 1, 479 / 50, "T"⟩ :
          ArbitrageOpportunity).token) ∧
    (∃ sm ∈ [(⟨"A", "T", 0, 100, 0, 1⟩ : MarketSummary),
        ⟨"B", "T", 110, 200, 1, 1⟩],
      (⟨"A", "B", 100, 110, 10, 10, 1, 479 / 50, "T"⟩ :
          ArbitrageOpportunity).sellMarket = sm.marketId ∧
        sm.token = (⟨"A", "B", 100, 110, 10, 10, 1, 479 / 50, "T"⟩ :
          ArbitrageOpportunity).token) :=
  (C5_findOpportunities
      [⟨"A", "T", 0, 100, 0, 1⟩, ⟨"B", "T", 110, 200, 1, 1⟩] 1).1
    ⟨"A", "B", 100, 110, 10, 10, 1, 479 / 50, "T"⟩
    (by norm_num [findOpportunities, tokenKeys, pairsAfter, checkArbitrage,
      List.insertionSort, List.orderedInsert, List.filter])

/-! ## RouteOptimizer lemmas -/

/-- Characterisation of the allocation loop over well-formed analysed
markets: the final remainder, the allocated `(marketId, amount)` pairs as
described by the greedy specification, and the allocated total. -/
theorem allocLoop_spec (side : Side) (ms : List MarketAnalysis)
    (wf : ∀ m ∈ ms, m.maxLiquidity = sumQ m.orderbook ∧
      ∀ lv ∈ m.orderbook, 0 < lv.quantity) :
    ∀ rem,
      (allocLoop side ms rem).2 =
        max (rem - (ms.map (fun m => m.maxLiquidity)).sum) (min rem 0) ∧
      (allocLoop side ms rem).1.map (fun a => (a.marketId, a.amount)) =
        greedyAmounts ms rem ∧
      ((allocLoop side ms rem).1.map (fun a => a.amount)).sum =
        rem - (allocLoop side ms rem).2 := by
  induction ms with
  | nil =>
    intro rem
    refine ⟨?_, rfl, by simp [allocLoop]⟩
    simp only [allocLoop, List.map_nil, List.sum_nil, sub_zero]
    exact (max_eq_left (min_le_left rem 0)).symm
  | cons m rest ih =>
    intro rem
    obtain ⟨hml, hq⟩ := wf m (List.mem_cons_self m rest)
    have wfrest : ∀ x ∈ rest, x.maxLiquidity = sumQ x.orderbook ∧
        ∀ lv ∈ x.orderbook, 0 < lv.quantity :=
      fun x hx => wf x (List.mem_cons_of_mem m hx)
    have hS : 0 ≤ (rest.map (fun x => x.maxLiquidity)).sum := by
      apply List.sum_nonneg
      intro q hqq
      obtain ⟨x, hx, rfl⟩ := List.mem_map.mp hqq
      rw [(wfrest x hx).1]
      exact sumQ_nonneg (fun lv hlv => le_of_lt ((wfrest x hx).2 lv hlv))
    have hm0 : 0 ≤ m.maxLiquidity := by
      rw [hml]
      exact sumQ_nonneg (fun lv hlv => le_of_lt (hq lv hlv))
    by_cases hrem : rem ≤ 0
    · simp only [allocLoop, greedyAmounts, if_pos hrem]
      refine ⟨?_, rfl, by simp⟩
      rw [min_eq_left hrem, List.map_cons, List.sum_cons]
      exact (max_eq_right (by linarith)).symm
    · push_neg at hrem
      by_cases hob : m.orderbook = []
      · have hml0 : m.maxLiquidity = 0 := by rw [hml, hob, sumQ_nil]
        have hfail : calculateSlippage m.orderbook
            (min rem m.maxLiquidity) side = .error .invalidOrderSize := by
          apply calcSlippage_invalid
          rw [hml0]
          exact min_le_right rem 0
        have hg : greedyAmounts (m :: rest) rem = greedyAmounts rest rem := by
          simp only [greedyAmounts, if_neg (not_le.mpr hrem), hml0]
          rw [if_neg (lt_irrefl 0)]
        simp only [allocLoop, if_neg (not_le.mpr hrem), hfail]
        rw [hg]
        have ihrem := ih wfrest rem
        refine ⟨?_, ihrem.2.1, ihrem.2.2⟩
        rw [ihrem.1, List.map_cons, List.sum_cons, hml0, zero_add]
      · have hmlpos : 0 < m.maxLiquidity := by
          rw [hml]
          exact sumQ_pos hob hq
        have hfillpos : 0 < min rem m.maxLiquidity := lt_min hrem hmlpos
        have hfle : min rem m.maxLiquidity ≤ sumQ m.orderbook := by
          rw [← hml]
          exact min_le_right _ _
        have hok := @calcSlippage_ok m.orderbook (min rem m.maxLiquidity)
          side (fun lv hlv => le_of_lt (hq lv hlv)) hfillpos hfle
        simp only [allocLoop, if_neg (not_le.mpr hrem), hok]
        have ihrem := ih wfrest (rem - min rem m.maxLiquidity)
        have hrt : 0 ≤ rem - min rem m.maxLiquidity := by
          have := min_le_left rem m.maxLiquidity
          linarith
        refine ⟨?_, ?_, ?_⟩
        · rw [ihrem.1, List.map_cons, List.sum_cons,
            min_eq_right hrt, min_eq_right (le_of_lt hrem)]
          rcases le_total rem m.maxLiquidity with hc | hc
          · rw [min_eq_left hc]
            rw [max_eq_right (by linarith), max_eq_right (by linarith)]
          · rw [min_eq_right hc]
            have : rem - m.maxLiquidity -
                (rest.map (fun x => x.maxLiquidity)).sum =
                rem - (m.maxLiquidity +
                  (rest.map (fun x => x.maxLiquidity)).sum) := by ring
            rw [this]
        · simp only [greedyAmounts, if_neg (not_le.mpr hrem),
            if_pos hmlpos, List.map_cons]
          rw [ihrem.2.1]
        · simp only [List.map_cons, List.sum_cons]
          rw [ihrem.2.2]
          ring

/-- Success of `calculateSlippage` forces a positive size, a non-empty
ladder and sufficient liquidity. -/
theorem calcSlippage_ok_inv {book : List PriceLevel} {size : ℚ} {side : Side}
    {res : SlippageResult} (wf : ∀ lv ∈ book, 0 ≤ lv.quantity)
    (h : calculateSlippage book size side = .ok res) :
    0 < size ∧ book ≠ [] ∧ size ≤ sumQ book := by
  rw [calcSlippage_cases book size side wf] at h
  split_ifs at h with h1 h2 h3
  exact ⟨not_le.mp h1, h2, not_lt.mp h3⟩

/-- Every allocation pushed by the loop comes from a listed market on which
`calculateSlippage` succeeded at exactly the allocated amount. -/
theorem allocLoop_mem (side : Side) (ms : List MarketAnalysis) (rem : ℚ) :
    ∀ a ∈ (allocLoop side ms rem).1, ∃ m ∈ ms, a.marketId = m.marketId ∧
      ∃ res, calculateSlippage m.orderbook a.amount side = .ok res := by
  induction ms generalizing rem with
  | nil => simp [allocLoop]
  | cons m rest ih =>
    intro a ha
    simp only [allocLoop] at ha
    by_cases hrem : rem ≤ 0
    · rw [if_pos hrem] at ha
      simp at ha
    · rw [if_neg hrem] at ha
      rcases hcs : calculateSlippage m.orderbook (min rem m.maxLiquidity) side
        with err | res
      · rw [hcs] at ha
        obtain ⟨m2, hm2, hid, hres⟩ := ih rem a ha
        exact ⟨m2, List.mem_cons_of_mem m hm2, hid, hres⟩
      · rw [hcs] at ha
        simp only [List.mem_cons] at ha
        rcases ha with rfl | ha
        · exact ⟨m, List.mem_cons_self m rest, rfl, res, hcs⟩
        · obtain ⟨m2, hm2, hid, hres⟩ := ih (rem - min rem m.maxLiquidity) a ha
          exact ⟨m2, List.mem_cons_of_mem m hm2, hid, hres⟩

/-- Analysed markets produced from well-formed route markets are
well-formed: the `maxLiquidity` field is the ladder total and quantities are
positive; this holds across the price-priority sort. -/
theorem sortMarkets_wf {markets : List RouteMarket} {side : Side}
    (wf : ∀ m ∈ markets, ∀ lv ∈ m.orderbook, 0 < lv.quantity) :
    ∀ m ∈ sortMarkets side (markets.map analyzeMarket),
      m.maxLiquidity = sumQ m.orderbook ∧
      ∀ lv ∈ m.orderbook, 0 < lv.quantity := by
  intro m hm
  rw [sortMarkets, List.mem_insertionSort] at hm
  obtain ⟨orig, horig, rfl⟩ := List.mem_map.mp hm
  exact ⟨rfl, fun lv hlv => wf orig horig lv hlv⟩

/-- The summed `maxLiquidity` over the sorted analysed markets is the total
ladder quantity of the input markets. -/
theorem sortMarkets_liquidity (markets : List RouteMarket) (side : Side) :
    ((sortMarkets side (markets.map analyzeMarket)).map
      (fun m => m.maxLiquidity)).sum = totalLadderQ markets := by
  have hperm : List.Perm
      ((sortMarkets side (markets.map analyzeMarket)).map
        (fun m => m.maxLiquidity))
      ((markets.map analyzeMarket).map (fun m => m.maxLiquidity)) :=
    (List.perm_insertionSort _ _).map _
  rw [hperm.sum_eq, List.map_map]
  rfl

/-- C3: with liquidity across all markets at least `totalAmount`,
`findOptimalRoute` succeeds and its allocations are exactly the greedy
best-base-price-first amounts `min(remaining, maxLiquidity)`; with total
liquidity below `totalAmount` it fails carrying the missing amount; and
every successful route has `savings ≥ 0`. -/
theorem C3_findOptimalRoute (token : String) (totalAmount : ℚ) (side : Side)
    (markets : List RouteMarket)
    (wf : ∀ m ∈ markets, ∀ lv ∈ m.orderbook, 0 < lv.quantity) :
    (totalAmount ≤ totalLadderQ markets →
      ∃ route, findOptimalRoute token totalAmount side markets = .ok route ∧
        route.markets.map (fun a => (a.marketId, a.amount)) =
          greedyAmounts (sortMarkets side (markets.map analyzeMarket))
            totalAmount ∧
        List.Sorted (baseLE side)
          (sortMarkets side (markets.map analyzeMarket)) ∧
        (sortMarkets side (markets.map analyzeMarket)).Perm
          (markets.map analyzeMarket)) ∧
    (totalLadderQ markets < totalAmount →
      findOptimalRoute token totalAmount side markets =
        .error (.insufficientAggregateLiquidity
          (totalAmount - totalLadderQ markets))) ∧
    (∀ route, findOptimalRoute token totalAmount side markets = .ok route →
      0 ≤ route.savings) := by
  have hspec := allocLoop_spec side (sortMarkets side (markets.map analyzeMarket))
    (sortMarkets_wf wf) totalAmount
  rw [sortMarkets_liquidity markets side] at hspec
  refine ⟨fun hle => ?_, fun hlt => ?_, fun route hok => ?_⟩
  · have hrem : (allocLoop side (sortMarkets side (markets.map analyzeMarket))
        totalAmount).2 ≤ 0 := by
      rw [hspec.1]
      exact max_le (by linarith) (min_le_right _ _)
    simp only [findOptimalRoute]
    rw [if_neg (not_lt.mpr hrem)]
    exact ⟨_, rfl, hspec.2.1, List.sorted_insertionSort (baseLE side) _,
      List.perm_insertionSort (baseLE side) _⟩
  · have hrem : (allocLoop side (sortMarkets side (markets.map analyzeMarket))
        totalAmount).2 = totalAmount - totalLadderQ markets := by
      rw [hspec.1]
      exact max_eq_left (le_trans (min_le_right _ _) (by linarith))
    simp only [findOptimalRoute]
    rw [hrem, if_pos (by linarith)]
  · simp only [findOptimalRoute] at hok
    by_cases hpos : 0 < (allocLoop side
        (sortMarkets side (markets.map analyzeMarket)) totalAmount).2
    · rw [if_pos hpos] at hok
      simp at hok
    · rw [if_neg hpos] at hok
      rw [Except.ok.injEq] at hok
      subst hok
      exact le_max_right _ _

/-- C10: every successful `findOptimalRoute` call allocates amounts summing
exactly to `totalAmount`; every allocation is strictly positive, bounded by
its market's total ladder quantity, and drawn from a listed market with a
non-empty ladder. -/
theorem C10_route_invariants (token : String) (totalAmount : ℚ) (side : Side)
    (markets : List RouteMarket)
    (wf : ∀ m ∈ markets, ∀ lv ∈ m.orderbook, 0 < lv.quantity)
    (hpos : 0 < totalAmount) :
    ∀ route, findOptimalRoute token totalAmount side markets = .ok route →
      (route.markets.map (fun a => a.amount)).sum = totalAmount ∧
      ∀ a ∈ route.markets, 0 < a.amount ∧
        ∃ m ∈ markets, a.marketId = m.marketId ∧ m.orderbook ≠ [] ∧
          a.amount ≤ sumQ m.orderbook := by
  intro route hok
  have hspec := allocLoop_spec side
    (sortMarkets side (markets.map analyzeMarket)) (sortMarkets_wf wf)
    totalAmount
  rw [sortMarkets_liquidity markets side] at hspec
  simp only [findOptimalRoute] at hok
  by_cases hp : 0 < (allocLoop side
      (sortMarkets side (markets.map analyzeMarket)) totalAmount).2
  · rw [if_pos hp] at hok
    simp at hok
  · rw [if_neg hp] at hok
    rw [Except.ok.injEq] at hok
    subst hok
    have hrem0 : (allocLoop side
        (sortMarkets side (markets.map analyzeMarket)) totalAmount).2 = 0 := by
      have hge : 0 ≤ (allocLoop side
          (sortMarkets side (markets.map analyzeMarket)) totalAmount).2 := by
        rw [hspec.1, min_eq_right (le_of_lt hpos)]
        exact le_max_right _ _
      linarith [not_lt.mp hp]
    constructor
    · rw [hspec.2.2, hrem0, sub_zero]
    · intro a ha
      obtain ⟨m, hm, hid, res, hres⟩ := allocLoop_mem side
        (sortMarkets side (markets.map analyzeMarket)) totalAmount a ha
      have hwfm := sortMarkets_wf wf m hm
      have hinv := calcSlippage_ok_inv
        (fun lv hlv => le_of_lt (hwfm.2 lv hlv)) hres
      rw [sortMarkets, List.mem_insertionSort] at hm
      obtain ⟨orig, horig, rfl⟩ := List.mem_map.mp hm
      exact ⟨hinv.1, orig, horig, hid, hinv.2.1, hinv.2.2⟩

/-- Witness for C3: success with two markets, failure beyond the aggregate
liquidity, and nonnegative savings on a concretely evaluated route. -/
theorem C3_witness :
    (∃ route, findOptimalRoute "X" 15 .buy
        [⟨"M1", [⟨100, 10⟩]⟩, ⟨"M2", [⟨101, 10⟩]⟩] = .ok route ∧
      route.markets.map (fun a => (a.marketId, a.amount)) =
        greedyAmounts (sortMarkets .buy
          ([⟨"M1", [⟨100, 10⟩]⟩, ⟨"M2", [⟨101, 10⟩]⟩].map analyzeMarket)) 15 ∧
      List.Sorted (baseLE .buy) (sortMarkets .buy
        ([⟨"M1", [⟨100, 10⟩]⟩, ⟨"M2", [⟨101, 10⟩]⟩].map analyzeMarket)) ∧
      (sortMarkets .buy
        ([⟨"M1", [⟨100, 10⟩]⟩, ⟨"M2", [⟨101, 10⟩]⟩].map analyzeMarket)).Perm
        ([⟨"M1", [⟨100, 10⟩]⟩, ⟨"M2", [⟨101, 10⟩]⟩].map analyzeMarket)) ∧
    findOptimalRoute "X" 50 .buy [⟨"M1", [⟨100, 10⟩]⟩, ⟨"M2", [⟨101, 10⟩]⟩] =
      .error (.insufficientAggregateLiquidity
        (50 - totalLadderQ [⟨"M1", [⟨100, 10⟩]⟩, ⟨"M2", [⟨101, 10⟩]⟩])) ∧
    0 ≤ ({ markets := [⟨"M1", 5, 100, 0⟩], totalAmount := 5,
           averagePrice := 100, totalSlippage := 0, savings := 0 } :
        OptimalRoute).savings := by
  have wf2 : ∀ m ∈ [(⟨"M1", [⟨100, 10⟩]⟩ : RouteMarket), ⟨"M2", [⟨101, 10⟩]⟩],
      ∀ lv ∈ m.orderbook, 0 < lv.quantity := by
    intro m hm lv hlv
    simp only [List.mem_cons, List.not_mem_nil, or_false] at hm
    rcases hm with rfl | rfl <;>
      simp only [List.mem_cons, List.not_mem_nil, or_false] at hlv <;>
      subst hlv <;> norm_num
  have wf1 : ∀ m ∈ [(⟨"M1", [⟨100, 10⟩]⟩ : RouteMarket)],
      ∀ lv ∈ m.orderbook, 0 < lv.quantity := by
    intro m hm lv hlv
    simp only [List.mem_cons, List.not_mem_nil, or_false] at hm
    subst hm
    simp only [List.mem_cons, List.not_mem_nil, or_false] at hlv
    subst hlv
    norm_num
  refine ⟨(C3_findOptimalRoute "X" 15 .buy _ wf2).1
      (by norm_num [totalLadderQ, sumQ_cons, sumQ_nil]),
    (C3_findOptimalRoute "X" 50 .buy _ wf2).2.1
      (by norm_num [totalLadderQ, sumQ_cons, sumQ_nil]),
    (C3_findOptimalRoute "X" 5 .buy _ wf1).2.2
      { markets := [⟨"M1", 5, 100, 0⟩], totalAmount := 5,
        averagePrice := 100, totalSlippage := 0, savings := 0 } ?_⟩
  norm_num [findOptimalRoute, sortMarkets, analyzeMarket, allocLoop,
    calculateSlippage, sortBook, fillWalk, sideLE, baseLE,
    List.insertionSort, List.orderedInsert, List.headI, sumQ, abs]

/-- Witness for C10 on a concretely evaluated single-market route. -/
theorem C10_witness :
    (([⟨"M1", 5, 100, 0⟩] : List RouteAllocation).map
        (fun a => a.amount)).sum = 5 ∧
    ∀ a ∈ ([⟨"M1", 5, 100, 0⟩] : List RouteAllocation), 0 < a.amount ∧
      ∃ m ∈ [(⟨"M1", [⟨100, 10⟩]⟩ : RouteMarket)],
        a.marketId = m.marketId ∧ m.orderbook ≠ [] ∧
        a.amount ≤ sumQ m.orderbook := by
  have wf1 : ∀ m ∈ [(⟨"M1", [⟨100, 10⟩]⟩ : RouteMarket)],
      ∀ lv ∈ m.orderbook, 0 < lv.quantity := by
    intro m hm lv hlv
    simp only [List.mem_cons, List.not_mem_nil, or_false] at hm
    subst hm
    simp only [List.mem_cons, List.not_mem_nil, or_false] at hlv
    subst hlv
    norm_num
  exact C10_route_invariants "X" 5 .buy [⟨"M1", [⟨100, 10⟩]⟩] wf1
    (by norm_num)
    { markets := [⟨"M1", 5, 100, 0⟩], totalAmount := 5,
      averagePrice := 100, totalSlippage := 0, savings := 0 }
    (by norm_num [findOptimalRoute, sortMarkets, analyzeMarket, allocLoop,
      calculateSlippage, sortBook, fillWalk, sideLE, baseLE,
      List.insertionSort, List.orderedInsert, List.headI, sumQ, abs])
